import Mathlib

/-!
Verification of the searxng-docker-tavily-adapter repository.

This file gives a shallow embedding, in Lean 4, of the components of the
repository that carry the algorithmic content: the engine selector
(simple_tavily_adapter/engine_selector.py), the retry/fallback orchestrator
and the reddit-to-google rewrite (simple_tavily_adapter/main.py), the token
and rate-limit governor (searxng/engines/reddit_api.py), and the three
result adapters (searxng/engines/reddit.py, reddit_api.py,
sources_local.py).  Python dictionaries with optional keys are embedded as
structures with Option fields and explicit getD defaults mirroring
dict.get; network effects are embedded as explicit inputs (probe outcome
functions, token-exchange responses, the current clock value); machine
floats for timestamps are embedded as rationals.
-/

set_option maxRecDepth 8192

/-- Python substring test: true when needle occurs inside hay
(the Python expression needle in hay on strings). -/
def strIn (needle hay : String) : Bool :=
  decide (needle.toList <:+: hay.toList)

/-- Python str.lower, embedded as a character map so that it evaluates by
kernel reduction.  Char.toLower lowercases the ASCII range, which covers
every use in this repository. -/
def strLower (s : String) : String :=
  String.mk (s.toList.map Char.toLower)

/-- Python truthiness of an optional string: None and the empty string are
falsy, every other string is truthy. -/
def optTruthy : Option String → Bool
  | none => false
  | some s => !(s == "")

/-- Python str.join with a comma separator. -/
def joinComma : List String → String
  | [] => ""
  | [x] => x
  | x :: y :: rest => x ++ "," ++ joinComma (y :: rest)

/-! ## Engine selector (simple_tavily_adapter/engine_selector.py) -/

def ENGINES_GENERAL : String := "google,duckduckgo,brave,mojeek"
def ENGINES_ACADEMIC : String := "google,arxiv,google scholar,wikipedia,wikidata"
def ENGINES_TECH : String := "google,github,stackoverflow,duckduckgo,lobste.rs,mdn"
def ENGINES_PRODUCT : String :=
  "google,duckduckgo,brave,mojeek,crowdview,google play apps,apple app store"
def ENGINES_REFERENCE : String := "google,wikipedia,wikidata,duckduckgo"
def ENGINES_NEWS : String := "google,google news,duckduckgo,brave,hackernews,lobste.rs"
def ENGINES_AI : String := "google,github,huggingface,arxiv,duckduckgo"

def ACADEMIC_KW : List String := [
  "research", "paper", "study", "arxiv", "journal", "thesis", "citation",
  "научн", "исследован", "статья", "диссертац",
  "algorithm", "neural network", "transformer", "llm architecture",
  "machine learning theory", "deep learning"]

def TECH_KW : List String := [
  "github", "stackoverflow", "programming", "code", "library", "framework",
  "npm", "pip", "package", "api", "sdk", "cli", "docker",
  "python", "javascript", "typescript", "swift", "kotlin", "rust", "go",
  "swiftui", "react", "nextjs", "fastapi", "django",
  "программиров", "код", "библиотек", "фреймворк"]

def PRODUCT_KW : List String := [
  "app", "alternative", "competitor", "pricing", "review", "vs",
  "saas", "startup", "product", "market", "landing",
  "приложени", "аналог", "конкурент", "цена", "отзыв",
  "best", "top", "comparison", "tools for",
  "app store", "play store", "ios", "android",
  "solopreneur", "indiehacker", "bootstrapped", "mvp"]

def REFERENCE_KW : List String := [
  "what is", "definition", "meaning", "wikipedia", "history of",
  "biography", "facts", "population", "statistics",
  "что такое", "определени", "значени", "биография", "история",
  "факт", "данные", "население", "статистик"]

def NEWS_KW : List String := [
  "news", "latest", "update", "announced", "launched", "released",
  "trend", "2025", "2026",
  "новост", "последн", "обновлен", "запуст", "тренд"]

def AI_KW : List String := [
  "huggingface", "model", "llm", "gpt", "claude", "gemini", "ollama",
  "fine-tune", "finetune", "embedding", "rag", "vector",
  "ai agent", "ai tool", "langchain", "llamaindex",
  "нейросет", "модел", "ии агент"]

/-- One category entry: (name, keyword list, engine set).  The order of the
list is the insertion order of the Python dict CATEGORIES, which Python
preserves during iteration. -/
abbrev Category := String × List String × String

def CATEGORIES : List Category := [
  ("academic", ACADEMIC_KW, ENGINES_ACADEMIC),
  ("tech", TECH_KW, ENGINES_TECH),
  ("product", PRODUCT_KW, ENGINES_PRODUCT),
  ("reference", REFERENCE_KW, ENGINES_REFERENCE),
  ("news", NEWS_KW, ENGINES_NEWS),
  ("ai", AI_KW, ENGINES_AI)]

/-- Score of one category against an already lowercased query: the number
of keywords that occur as substrings of the query
(Python: sum of 1 for kw in keywords if kw in q). -/
def catScore (q : String) (kws : List String) : Nat :=
  (kws.filter (fun kw => strIn kw q)).length

/-- The best (category, score) pair after the Python for loop over
CATEGORIES with the strict update condition score greater than best_score.
The accumulator stores the whole category entry rather than just its name;
this is equivalent because category names are unique dict keys, so the
final dict lookup of the stored name returns exactly the stored entry. -/
def selectBest (q : String) : Option Category × Nat :=
  CATEGORIES.foldl
    (fun acc c => if catScore q c.2.1 > acc.2 then (some c, catScore q c.2.1) else acc)
    ((none : Option Category), 0)

/-- get_smart_engines from engine_selector.py. -/
def get_smart_engines (query : String) : String :=
  let q := strLower query
  let best := selectBest q
  if best.2 = 0 then ENGINES_GENERAL
  else
    match best.1 with
    | none => ENGINES_GENERAL
    | some c => c.2.2

/-- Modelled from the words of the spec, for comparison with the code:
the greatest category score for a lowercased query. -/
def bestScoreSpec (q : String) : Nat :=
  (CATEGORIES.map fun c => catScore q c.2.1).foldr max 0

/-- Modelled from the words of the spec, for comparison with the code:
the engine set of the first category in table order whose score attains the
greatest score, or the default general set when every category scores zero. -/
def enginesSpec (query : String) : String :=
  let q := strLower query
  if bestScoreSpec q = 0 then ENGINES_GENERAL
  else
    match CATEGORIES.find? (fun c => catScore q c.2.1 = bestScoreSpec q) with
    | some c => c.2.2
    | none => ENGINES_GENERAL

example : get_smart_engines "python programming" = ENGINES_TECH := by decide
example : get_smart_engines "" = ENGINES_GENERAL := by decide
example : get_smart_engines "weather tomorrow" = ENGINES_GENERAL := by decide

/-- Characterization of the strict-improvement argmax fold: its score is
the maximum of the start score and all element scores, and when some
element strictly beats the start score the selected element is the first
one attaining that maximum. -/
theorem foldBest_eq {α : Type} (f : α → Nat) (l : List α) (bc : Option α) (bs : Nat) :
    l.foldl (fun acc c => if f c > acc.2 then (some c, f c) else acc) (bc, bs) =
      (if (l.map f).foldr max 0 ≤ bs then (bc, bs)
       else ((l.find? fun c => f c = (l.map f).foldr max 0), (l.map f).foldr max 0)) := by
  induction l generalizing bc bs with
  | nil => simp
  | cons h t ih =>
    simp only [List.foldl_cons, List.map_cons, List.foldr_cons]
    by_cases hb : f h > bs
    · rw [if_pos hb, ih]
      by_cases hM : (t.map f).foldr max 0 ≤ f h
      · have hmax : max (f h) ((t.map f).foldr max 0) = f h := max_eq_left hM
        simp only [hmax]
        rw [if_pos hM, if_neg (by omega)]
        rw [List.find?_cons_of_pos _ (by simp)]
      · have hlt : f h < (t.map f).foldr max 0 := Nat.lt_of_not_le hM
        have hmax : max (f h) ((t.map f).foldr max 0) = (t.map f).foldr max 0 :=
          max_eq_right (Nat.le_of_lt hlt)
        simp only [hmax]
        rw [if_neg hM, if_neg (by omega)]
        rw [List.find?_cons_of_neg _ (by simp; omega)]
    · rw [if_neg hb, ih]
      have hhb : f h ≤ bs := Nat.le_of_not_lt hb
      by_cases hM : (t.map f).foldr max 0 ≤ bs
      · rw [if_pos hM, if_pos (max_le hhb hM)]
      · have hlt : bs < (t.map f).foldr max 0 := Nat.lt_of_not_le hM
        have hmax : max (f h) ((t.map f).foldr max 0) = (t.map f).foldr max 0 :=
          max_eq_right (le_trans hhb (Nat.le_of_lt hlt))
        simp only [hmax]
        rw [if_neg hM, if_neg hM]
        rw [List.find?_cons_of_neg _ (by simp; omega)]

/-- The foldr-max of a list of naturals is zero or one of its elements. -/
theorem foldr_max_attained (l : List Nat) : l.foldr max 0 = 0 ∨ l.foldr max 0 ∈ l := by
  induction l with
  | nil => exact Or.inl rfl
  | cons h t ih =>
    simp only [List.foldr_cons]
    rcases Nat.le_total h (t.foldr max 0) with hle | hle
    · rw [max_eq_right hle]
      rcases ih with h0 | hmem
      · rw [h0]
        rw [h0] at hle
        interval_cases h
        · exact Or.inr (List.mem_cons_self 0 t)
      · exact Or.inr (List.mem_cons_of_mem h hmem)
    · rw [max_eq_left hle]
      exact Or.inr (List.mem_cons_self h t)

/-- C4: for every query string, get_smart_engines agrees with the
spec-side selector enginesSpec (category with strictly greatest
substring-keyword score, ties resolved to the first-seen category in table
order); when some category scores, the returned engine set is that of the
first best-scoring category; when every category scores zero it returns
the default general set, in particular for the empty query. -/
theorem get_smart_engines_spec (query : String) :
    get_smart_engines query = enginesSpec query ∧
    (bestScoreSpec (strLower query) = 0 → get_smart_engines query = ENGINES_GENERAL) ∧
    (bestScoreSpec (strLower query) ≠ 0 →
      ∃ c ∈ CATEGORIES,
        catScore (strLower query) c.2.1 = bestScoreSpec (strLower query) ∧
        CATEGORIES.find?
          (fun d => catScore (strLower query) d.2.1 = bestScoreSpec (strLower query)) = some c ∧
        get_smart_engines query = c.2.2) ∧
    get_smart_engines "" = ENGINES_GENERAL := by
  have hsel : ∀ q : String, selectBest q =
      (if bestScoreSpec q = 0 then ((none : Option Category), 0)
       else ((CATEGORIES.find? fun c => catScore q c.2.1 = bestScoreSpec q), bestScoreSpec q)) := by
    intro q
    have := foldBest_eq (fun c : Category => catScore q c.2.1) CATEGORIES none 0
    unfold selectBest bestScoreSpec
    rw [this]
    simp only [Nat.le_zero]
  have hget : ∀ q : String, get_smart_engines q =
      (if bestScoreSpec (strLower q) = 0 then ENGINES_GENERAL
       else
        match CATEGORIES.find?
            (fun c => catScore (strLower q) c.2.1 = bestScoreSpec (strLower q)) with
        | some c => c.2.2
        | none => ENGINES_GENERAL) := by
    intro q
    simp only [get_smart_engines, hsel]
    by_cases h0 : bestScoreSpec (strLower q) = 0
    · simp [h0]
    · simp only [if_neg h0]
      cases CATEGORIES.find?
          (fun c => catScore (strLower q) c.2.1 = bestScoreSpec (strLower q)) <;> simp [h0]
  have heq : get_smart_engines query = enginesSpec query := by
    rw [hget query]
    rfl
  refine ⟨heq, ?_, ?_, by decide⟩
  · intro h0
    rw [hget query, if_pos h0]
  · intro h0
    have hmem : bestScoreSpec (strLower query) ∈
        (CATEGORIES.map fun c : Category => catScore (strLower query) c.2.1) := by
      rcases foldr_max_attained (CATEGORIES.map fun c : Category => catScore (strLower query) c.2.1)
        with h | h
      · exact absurd h h0
      · exact h
    rcases List.mem_map.mp hmem with ⟨c0, hc0, hscore⟩
    rcases hf : CATEGORIES.find?
        (fun d => catScore (strLower query) d.2.1 = bestScoreSpec (strLower query)) with _ | c
    · have h2 := List.find?_eq_none.mp hf c0 hc0
      simp [hscore] at h2
    · refine ⟨c, List.mem_of_find?_eq_some hf, ?_, hf, ?_⟩
      · simpa using List.find?_some hf
      · rw [hget query, if_neg h0, hf]

/-! ## Retry/fallback orchestrator (simple_tavily_adapter/main.py) -/

/-- Python str.split on a comma, embedded over the character list:
every comma separates, empty pieces are kept. -/
def splitCommaAux : List Char → List Char → List String
  | [], acc => [String.mk acc.reverse]
  | c :: rest, acc =>
    if c = ',' then String.mk acc.reverse :: splitCommaAux rest []
    else splitCommaAux rest (c :: acc)

def splitComma (s : String) : List String := splitCommaAux s.toList []

/-- Python str.strip: remove leading and trailing whitespace. -/
def pyStrip (s : String) : String :=
  String.mk (((s.toList.dropWhile Char.isWhitespace).reverse.dropWhile
    Char.isWhitespace).reverse)

/-- Fallback engine lists for the retry logic, in source order. -/
def ENGINE_FALLBACKS : List String := [
  "google,duckduckgo,brave",
  "google,brave,wikipedia",
  "duckduckgo,brave,wikipedia",
  "google,duckduckgo,wikipedia,wikidata"]

/-- The engine-list transformation inside the reddit rewrite of main.py:
drop reddit, then prepend google when it is absent
(engine_list.insert of 0 and google). -/
def rewriteEngineList (engine_list : List String) : List String :=
  let filtered := engine_list.filter (fun e => e ≠ "reddit")
  if "google" ∈ filtered then filtered else "google" :: filtered

/-- The function _rewrite_reddit_to_google of main.py (the source name
carries a leading underscore): when the explicit engine list contains
reddit, remove it, ensure google is present, and add a site:reddit.com
filter to the query unless it is already there. -/
def rewrite_reddit_to_google (query : String) (engines : Option String) :
    String × Option String :=
  match engines with
  | none => (query, none)
  | some es =>
    if es = "" then (query, some es)
    else
      let engine_list := (splitComma es).map pyStrip
      if "reddit" ∈ engine_list then
        let el := rewriteEngineList engine_list
        let q := if strIn "site:reddit.com" query then query
                 else "site:reddit.com " ++ query
        (q, some (joinComma el))
      else (query, some es)

/-- One entry of the aggregator results list, as an uninterpreted JSON
object; the orchestrator never looks inside the entries. -/
abbrev SearxResult := List (String × String)

/-- The parsed JSON body of a 200 aggregator response: the optional
results list (data.get of results with default empty) plus the remaining
top-level fields, kept so that returning the payload unchanged is an
observable statement. -/
structure Payload where
  results : Option (List SearxResult)
  extra : List (String × String)
deriving DecidableEq

/-- The observable outcome of one probe to the aggregator: an HTTP reply
with its status and (for 200) parsed payload, a timeout, or any other
transport-level error.  The random delay and header randomization of the
source affect no observable modelled here. -/
inductive ProbeOutcome where
  | http (status : Nat) (payload : Payload)
  | timeout
  | transport
deriving DecidableEq

/-- The form fields of one probe request built by the retry loop. -/
structure SearxParams where
  q : String
  format : String
  engines : String
  pageno : Nat
  language : String
  safesearch : Nat
  categories : Option String
deriving DecidableEq

/-- The engine choice of one attempt (lines 174 to 182 of main.py): a
truthy user list is used for every attempt, attempt zero uses the smart
selector, and later attempts cycle through the fallback table. -/
def attemptEngines (query : String) (user_engines : Option String) (attempt : Nat) : String :=
  if optTruthy user_engines then user_engines.getD ""
  else if attempt = 0 then get_smart_engines query
  else ENGINE_FALLBACKS.getD ((attempt - 1) % ENGINE_FALLBACKS.length) ""

/-- The request fields of one attempt; the categories field is only set
when the user did not explicitly choose engines. -/
def attemptParams (query : String) (user_engines : Option String) (attempt : Nat) : SearxParams :=
  { q := query
    format := "json"
    engines := attemptEngines query user_engines attempt
    pageno := 1
    language := "auto"
    safesearch := 1
    categories := if optTruthy user_engines then none else some "general" }

/-- Classification of one probe outcome following the body of the retry
loop: HTTP 200 whose payload has a nonempty results list is the terminal
success; HTTP 200 with no results, any other status, a timeout or a
transport error fall through to the next attempt (the source logs and
continues, and the except arms swallow the exceptions). -/
def probeSuccess : ProbeOutcome → Option Payload
  | .http status payload =>
    if status = 200 then
      (if (payload.results.getD []).isEmpty then none else some payload)
    else none
  | .timeout => none
  | .transport => none

/-- The payload returned after exhaustion: the literal dict with an empty
results list. -/
def emptyPayload : Payload := { results := some [], extra := [] }

/-- The retry loop of perform_search_with_retry, instrumented with the
number of probes performed.  The fuel argument is the number of attempts
left and attempt the absolute attempt index, so the Python loop
for attempt in range(max_retries) is searchFrom probe q ue 0 max_retries. -/
def searchFrom (probe : Nat → SearxParams → ProbeOutcome) (query : String)
    (user_engines : Option String) (attempt : Nat) : Nat → Payload × Nat
  | 0 => (emptyPayload, 0)
  | fuel + 1 =>
    match probeSuccess (probe attempt (attemptParams query user_engines attempt)) with
    | some payload => (payload, 1)
    | none =>
      let r := searchFrom probe query user_engines (attempt + 1) fuel
      (r.1, r.2 + 1)

/-- perform_search_with_retry of main.py.  The network is embedded as the
probe function from the attempt index and its request fields to an
outcome; max_results is accepted and unused, as in the source.  The
second component counts the probes performed. -/
def perform_search_with_retry (probe : Nat → SearxParams → ProbeOutcome) (query : String)
    (max_results : Nat) (max_retries : Nat) (user_engines : Option String) : Payload × Nat :=
  let r := rewrite_reddit_to_google query user_engines
  searchFrom probe r.1 r.2 0 max_retries

/-- The request fields the orchestrator hands to the probe at a given
attempt: the rewrite runs once, before the loop. -/
def paramsUsed (query : String) (user_engines : Option String) (attempt : Nat) : SearxParams :=
  let r := rewrite_reddit_to_google query user_engines
  attemptParams r.1 r.2 attempt

/-- The engine set the orchestrator uses at a given attempt. -/
def enginesUsed (query : String) (user_engines : Option String) (attempt : Nat) : String :=
  (paramsUsed query user_engines attempt).engines

/-- The conditions under which one probe does not terminate the loop,
exactly as the claim enumerates them: a 200 with an empty parsed results
list, a non-200 status, a timeout, or a transport error. -/
def probeFailed : ProbeOutcome → Prop
  | .http status payload => status ≠ 200 ∨ payload.results.getD [] = []
  | .timeout => True
  | .transport => True

theorem probeFailed_success {o : ProbeOutcome} (h : probeFailed o) :
    probeSuccess o = none := by
  cases o with
  | http status payload =>
    rcases h with h | h
    · simp [probeSuccess, h]
    · simp [probeSuccess, h]
  | timeout => rfl
  | transport => rfl

theorem searchFrom_all_failed (probe : Nat → SearxParams → ProbeOutcome)
    (hfail : ∀ i ps, probeFailed (probe i ps)) :
    ∀ (fuel attempt : Nat) (q : String) (ue : Option String),
    searchFrom probe q ue attempt fuel = (emptyPayload, fuel) := by
  intro fuel
  induction fuel with
  | zero => intro attempt q ue; rfl
  | succ n ih =>
    intro attempt q ue
    simp only [searchFrom]
    rw [probeFailed_success (hfail _ _)]
    simp [ih]

/-- C1: when every probe yields a 200 with an empty result list, a
non-200 status, a timeout, or a transport error, the orchestrator performs
exactly max_retries probes and returns the empty payload; exhaustion is a
return value, not an exception (the embedded loop is a total function and
every failing outcome flows to the continue branch, as in the source where
the except arms absorb the exceptions). -/
theorem retry_exhaustion (probe : Nat → SearxParams → ProbeOutcome) (query : String)
    (max_results max_retries : Nat) (user_engines : Option String)
    (hmr : 1 ≤ max_retries) (hfail : ∀ i ps, probeFailed (probe i ps)) :
    (perform_search_with_retry probe query max_results max_retries user_engines).2 =
      max_retries ∧
    (perform_search_with_retry probe query max_results max_retries
      user_engines).1.results.getD [] = [] := by
  unfold perform_search_with_retry
  rw [searchFrom_all_failed probe hfail]
  exact ⟨rfl, rfl⟩

theorem retry_exhaustion_witness :
    1 ≤ 3 ∧
    (perform_search_with_retry (fun _ _ => ProbeOutcome.timeout) "hello" 10 3 none).2 = 3 ∧
    (perform_search_with_retry (fun _ _ => ProbeOutcome.timeout) "hello" 10 3
      none).1.results.getD [] = [] :=
  ⟨by decide,
   retry_exhaustion (fun _ _ => ProbeOutcome.timeout) "hello" 10 3 none (by decide)
     (fun _ _ => True.intro)⟩

theorem searchFrom_first_success (probe : Nat → SearxParams → ProbeOutcome)
    (q : String) (ue : Option String) :
    ∀ (k start fuel : Nat) (payload : Payload), k < fuel →
    (∀ i, i < k → probeSuccess (probe (start + i) (attemptParams q ue (start + i))) = none) →
    probeSuccess (probe (start + k) (attemptParams q ue (start + k))) = some payload →
    searchFrom probe q ue start fuel = (payload, k + 1) := by
  intro k
  induction k with
  | zero =>
    intro start fuel payload hk hnone hsucc
    match fuel, hk with
    | fuel + 1, _ =>
      simp only [Nat.add_zero] at hsucc
      simp only [searchFrom]
      rw [hsucc]
  | succ n ih =>
    intro start fuel payload hk hnone hsucc
    match fuel, hk with
    | fuel + 1, hk =>
      simp only [searchFrom]
      have h0 : probeSuccess (probe start (attemptParams q ue start)) = none := by
        have h1 := hnone 0 (Nat.succ_pos n)
        simpa using h1
      rw [h0]
      have harr : start + (n + 1) = start + 1 + n := by omega
      have ihr := ih (start + 1) fuel payload (by omega)
        (fun i hi => by
          have h2 := hnone (i + 1) (by omega)
          have h3 : start + (i + 1) = start + 1 + i := by omega
          rwa [h3] at h2)
        (by rwa [harr] at hsucc)
      simp [ihr]

/-- C2: when attempts 0 to k-1 yield 200 with an empty result list and
attempt k yields 200 with a nonempty result list, the orchestrator
performs exactly k+1 probes and returns the payload of attempt k
unchanged. -/
theorem retry_first_nonempty (probe : Nat → SearxParams → ProbeOutcome) (query : String)
    (max_results max_retries k : Nat) (user_engines : Option String) (pay : Nat → Payload)
    (hk : k < max_retries)
    (hearly : ∀ i ps, i < k → probe i ps = ProbeOutcome.http 200 (pay i))
    (hempty : ∀ i, i < k → (pay i).results.getD [] = [])
    (hat : ∀ ps, probe k ps = ProbeOutcome.http 200 (pay k))
    (hnonempty : (pay k).results.getD [] ≠ []) :
    perform_search_with_retry probe query max_results max_retries user_engines =
      (pay k, k + 1) := by
  unfold perform_search_with_retry
  apply searchFrom_first_success probe _ _ k 0 max_retries (pay k) hk
  · intro i hi
    rw [Nat.zero_add, hearly i _ hi]
    simp [probeSuccess, hempty i hi]
  · rw [Nat.zero_add, hat]
    simp [probeSuccess, List.isEmpty_iff, hnonempty]

def payloadA : Payload := { results := some [], extra := [("answers", "")] }

def payloadB : Payload :=
  { results := some [[("url", "https://e.org"), ("title", "t")]], extra := [("answers", "a")] }

theorem retry_first_nonempty_witness :
    perform_search_with_retry
      (fun i _ => ProbeOutcome.http 200 (if i = 0 then payloadA else payloadB))
      "hello" 10 3 none = (payloadB, 2) := by
  have h := retry_first_nonempty
    (fun i _ => ProbeOutcome.http 200 (if i = 0 then payloadA else payloadB))
    "hello" 10 3 1 none (fun i => if i = 0 then payloadA else payloadB)
    (by decide)
    (fun i ps hi => by interval_cases i <;> rfl)
    (fun i hi => by interval_cases i <;> rfl)
    (fun ps => rfl)
    (by decide)
  simpa using h

theorem rewriteEngineList_mem (l : List String) (e : String) :
    e ∈ rewriteEngineList l ↔ (e = "google" ∨ (e ∈ l ∧ e ≠ "reddit")) := by
  unfold rewriteEngineList
  by_cases hg : "google" ∈ l.filter (fun x => x ≠ "reddit")
  · rw [if_pos hg]
    have hg2 := List.mem_filter.mp hg
    simp only [List.mem_filter, decide_eq_true_eq] at hg2 ⊢
    constructor
    · intro h2
      exact Or.inr h2
    · intro h2
      rcases h2 with h2 | h2
      · subst h2
        exact hg2
      · exact h2
  · rw [if_neg hg]
    simp only [List.mem_cons, List.mem_filter, decide_eq_true_eq]

theorem rewriteEngineList_no_reddit (l : List String) :
    "reddit" ∉ rewriteEngineList l := by
  intro h
  rcases (rewriteEngineList_mem l "reddit").mp h with h | ⟨_, h⟩
  · exact absurd h (by decide)
  · exact h rfl

theorem rewriteEngineList_mem_google (l : List String) :
    "google" ∈ rewriteEngineList l :=
  (rewriteEngineList_mem l "google").mpr (Or.inl rfl)

theorem joinComma_length_ge {x : String} :
    ∀ {l : List String}, x ∈ l → x.length ≤ (joinComma l).length := by
  intro l
  induction l with
  | nil => intro h; cases h
  | cons h t ih =>
    intro hx
    cases t with
    | nil =>
      rcases List.mem_singleton.mp hx with rfl
      exact Nat.le_refl _
    | cons y rest =>
      have hjoin : joinComma (h :: y :: rest) = h ++ "," ++ joinComma (y :: rest) := rfl
      rw [hjoin]
      rcases List.mem_cons.mp hx with rfl | hx2
      · simp only [String.length_append]
        omega
      · have hle := ih hx2
        simp only [String.length_append]
        omega

theorem joinComma_rewrite_ne_empty (l : List String) :
    joinComma (rewriteEngineList l) ≠ "" := by
  intro h
  have hlen := joinComma_length_ge (rewriteEngineList_mem_google l)
  rw [h] at hlen
  exact absurd hlen (by decide)

/-- The empty or missing engine string is left untouched by the rewrite. -/
theorem rewrite_falsy (query : String) (ue : Option String) (h : optTruthy ue = false) :
    rewrite_reddit_to_google query ue = (query, ue) := by
  match ue with
  | none => rfl
  | some es =>
    simp only [optTruthy, Bool.not_eq_true'] at h
    have hes : es = "" := by simpa using h
    subst hes
    rfl

/-- A truthy engine string stays truthy through the rewrite. -/
theorem rewrite_truthy (query : String) (ue : Option String) (h : optTruthy ue = true) :
    optTruthy (rewrite_reddit_to_google query ue).2 = true := by
  match ue with
  | none => simp [optTruthy] at h
  | some es =>
    have hes : es ≠ "" := by
      intro hc
      subst hc
      simp [optTruthy] at h
    simp only [rewrite_reddit_to_google]
    rw [if_neg hes]
    by_cases hr : "reddit" ∈ (splitComma es).map pyStrip
    · rw [if_pos hr]
      simp only [optTruthy, Bool.not_eq_true', beq_eq_false_iff_ne, ne_eq]
      simpa using joinComma_rewrite_ne_empty ((splitComma es).map pyStrip)
    · rw [if_neg hr]
      simpa [optTruthy] using hes

/-- C3 counterexample: the user-supplied engine list consisting of the
single engine reddit is truthy, yet the engine set of attempt 0 is not
that list (the rewrite replaced it by google). -/
theorem engines_user_list_counterexample :
    optTruthy (some "reddit") = true ∧ enginesUsed "x" (some "reddit") 0 ≠ "reddit" := by
  constructor
  · rfl
  · decide

/-- C3 amended: at every attempt, a truthy user list means the engine set
is the rewritten user list, fixed across attempts (equal to the supplied
list whenever it does not name reddit); with no truthy user list, attempt
0 uses the smart selector on the query and attempt i greater than 0 uses
the fallback table entry at index (i-1) mod table length. -/
theorem engines_per_attempt (query : String) (ue : Option String) (attempt : Nat) :
    enginesUsed query ue attempt =
      (if optTruthy ue then (rewrite_reddit_to_google query ue).2.getD ""
       else if attempt = 0 then get_smart_engines query
       else ENGINE_FALLBACKS.getD ((attempt - 1) % ENGINE_FALLBACKS.length) "") := by
  by_cases ht : optTruthy ue = true
  · rw [if_pos ht]
    have htr := rewrite_truthy query ue ht
    unfold enginesUsed paramsUsed attemptParams attemptEngines
    simp only [htr, if_pos]
  · have hf : optTruthy ue = false := by
      rcases Bool.dichotomy (optTruthy ue) with h | h
      · exact h
      · exact absurd h ht
    rw [if_neg ht]
    unfold enginesUsed paramsUsed attemptParams attemptEngines
    rw [rewrite_falsy query ue hf]
    simp only [hf, Bool.false_eq_true, if_false]

theorem strIn_of_append (pre q sub : String) (h : sub.toList <+: pre.toList) :
    strIn sub (pre ++ q) = true := by
  unfold strIn
  rw [decide_eq_true_eq]
  have hd : (pre ++ q).toList = pre.toList ++ q.toList := by
    simp [String.toList, String.data_append]
  rw [hd]
  exact (h.trans (List.prefix_append pre.toList q.toList)).isInfix

/-- C10: when the explicit engine list names reddit, the rewrite performed
once before any probe removes reddit, keeps exactly the remaining entries
plus google, puts google first when it was absent, prefixes the query with
the site:reddit.com token unless that token already occurs in it, and
every attempt then probes with the rewritten engine list and query. -/
theorem reddit_rewrite_all_probes (query es : String)
    (hr : "reddit" ∈ (splitComma es).map pyStrip) :
    "reddit" ∉ rewriteEngineList ((splitComma es).map pyStrip) ∧
    (∀ e, e ∈ rewriteEngineList ((splitComma es).map pyStrip) ↔
      (e = "google" ∨ (e ∈ (splitComma es).map pyStrip ∧ e ≠ "reddit"))) ∧
    ("google" ∉ ((splitComma es).map pyStrip).filter (fun e => e ≠ "reddit") →
      (rewriteEngineList ((splitComma es).map pyStrip)).head? = some "google") ∧
    (rewrite_reddit_to_google query (some es)).2 =
      some (joinComma (rewriteEngineList ((splitComma es).map pyStrip))) ∧
    (strIn "site:reddit.com" query = false →
      (rewrite_reddit_to_google query (some es)).1 = "site:reddit.com " ++ query) ∧
    (strIn "site:reddit.com" query = true →
      (rewrite_reddit_to_google query (some es)).1 = query) ∧
    strIn "site:reddit.com" (rewrite_reddit_to_google query (some es)).1 = true ∧
    (∀ i, (paramsUsed query (some es) i).engines =
        joinComma (rewriteEngineList ((splitComma es).map pyStrip)) ∧
      (paramsUsed query (some es) i).q = (rewrite_reddit_to_google query (some es)).1) := by
  have hes : es ≠ "" := by
    intro hc
    subst hc
    exact absurd hr (by decide)
  have hrw : rewrite_reddit_to_google query (some es) =
      ((if strIn "site:reddit.com" query then query else "site:reddit.com " ++ query),
       some (joinComma (rewriteEngineList ((splitComma es).map pyStrip)))) := by
    simp only [rewrite_reddit_to_google]
    rw [if_neg hes, if_pos hr]
  have hne := joinComma_rewrite_ne_empty ((splitComma es).map pyStrip)
  refine ⟨rewriteEngineList_no_reddit _, rewriteEngineList_mem _, ?_, ?_, ?_, ?_, ?_, ?_⟩
  · intro hg
    unfold rewriteEngineList
    rw [if_neg hg]
    rfl
  · rw [hrw]
  · intro hq
    rw [hrw]
    simp [hq]
  · intro hq
    rw [hrw]
    simp [hq]
  · rw [hrw]
    by_cases hq : strIn "site:reddit.com" query = true
    · simpa [hq] using hq
    · have hq2 : strIn "site:reddit.com" query = false := by
        rcases Bool.dichotomy (strIn "site:reddit.com" query) with h | h
        · exact h
        · exact absurd h hq
      simp only [hq2, Bool.false_eq_true, if_false]
      exact strIn_of_append "site:reddit.com " query "site:reddit.com" (by decide)
  · intro i
    constructor
    · simp [paramsUsed, hrw, attemptParams, attemptEngines, optTruthy, hne]
    · rfl

theorem reddit_rewrite_witness :
    "reddit" ∈ (splitComma "reddit, brave").map pyStrip ∧
    (rewrite_reddit_to_google "vim tips" (some "reddit, brave")).2 = some "google,brave" ∧
    (rewrite_reddit_to_google "vim tips" (some "reddit, brave")).1 =
      "site:reddit.com vim tips" := by
  refine ⟨by decide, ?_, ?_⟩
  · have h := (reddit_rewrite_all_probes "vim tips" "reddit, brave" (by decide)).2.2.2.1
    rw [h]
    decide
  · have h :=
      (reddit_rewrite_all_probes "vim tips" "reddit, brave" (by decide)).2.2.2.2.1 (by decide)
    rw [h]
    decide

theorem get_smart_engines_spec_witness :
    bestScoreSpec (strLower "python programming") ≠ 0 ∧
    get_smart_engines "python programming" = ENGINES_TECH := by
  refine ⟨by decide, ?_⟩
  obtain ⟨c, hmem, hscore, hfind, hval⟩ :=
    (get_smart_engines_spec "python programming").2.2.1 (by decide)
  have hf : CATEGORIES.find?
      (fun d => catScore (strLower "python programming") d.2.1 =
        bestScoreSpec (strLower "python programming")) =
      some ("tech", TECH_KW, ENGINES_TECH) := by decide
  rw [hf] at hfind
  have hc := Option.some.inj hfind
  rw [hval, ← hc]

/-! ## Token and rate-limit governor (searxng/engines/reddit_api.py) -/

/-- The module-level token cache of reddit_api.py: the globals with a
leading underscore in the source.  Timestamps are rationals standing for
the float seconds of time.time. -/
structure TokenState where
  token : Option String
  token_expires : ℚ
deriving DecidableEq

/-- The initial module state: no token, expiry 0. -/
def initTokenState : TokenState := { token := none, token_expires := 0 }

/-- The parsed JSON body of one successful client-credentials exchange:
the access token plus the optional expires_in field, read with dict.get
and default 3600. -/
structure TokenResponse where
  access_token : String
  expires_in : Option ℚ
deriving DecidableEq

/-- The function _get_token of reddit_api.py.  The clock and the token
endpoint response are explicit inputs; the result is the returned token,
the new cache state, and the number of client-credentials exchanges
performed (0 or 1).  A failing exchange raises in the source and is
outside this function, which models the successful path. -/
def get_token (st : TokenState) (now : ℚ) (fetch : TokenResponse) :
    String × TokenState × Nat :=
  if optTruthy st.token ∧ now < st.token_expires then
    (st.token.getD "", st, 0)
  else
    let tok := fetch.access_token
    let expires := now + fetch.expires_in.getD 3600 - 60
    (tok, { token := some tok, token_expires := expires }, 1)

/-- The module-level rate bookkeeping of reddit_api.py: the last-observed
remaining quota and the timestamp at which the quota resets. -/
structure RateState where
  rate_remaining : Int
  rate_reset : ℚ
deriving DecidableEq

def RATE_SAFETY_FLOOR : Int := 50

/-- The function _is_rate_limited of reddit_api.py. -/
def is_rate_limited (st : RateState) (now : ℚ) : Bool :=
  if now > st.rate_reset then false
  else if st.rate_remaining < RATE_SAFETY_FLOOR then true
  else false

/-- The request fields built by the request function of reddit_api.py;
the urlencoded search URL is abstracted to the raw query it carries. -/
structure RedditRequest where
  query : String
  authorization : String
deriving DecidableEq

/-- The request function of reddit_api.py: a throttled request returns
None before any token work; otherwise the token is acquired (possibly
refreshing the cache) and the authorized request is built. -/
def reddit_api_request (query : String) (rst : RateState) (tst : TokenState)
    (now : ℚ) (fetch : TokenResponse) : Option RedditRequest × TokenState :=
  if is_rate_limited rst now then (none, tst)
  else
    let r := get_token tst now fetch
    (some { query := query, authorization := "Bearer " ++ r.1 }, r.2.1)

/-- C7: the governed request is suppressed (None before probing) exactly
when the last-observed remaining quota is below the safety floor and the
last-observed reset time has not yet elapsed; once the clock passes
rate_reset the throttle lifts with no new response needed, since the
state is an input left unchanged. -/
theorem throttle_spec (rst : RateState) (tst : TokenState) (now : ℚ)
    (fetch : TokenResponse) (query : String) :
    ((reddit_api_request query rst tst now fetch).1 = none ↔
      (rst.rate_remaining < RATE_SAFETY_FLOOR ∧ now ≤ rst.rate_reset)) ∧
    (rst.rate_reset < now → is_rate_limited rst now = false) := by
  have hlim : is_rate_limited rst now = true ↔
      (rst.rate_remaining < RATE_SAFETY_FLOOR ∧ now ≤ rst.rate_reset) := by
    unfold is_rate_limited
    constructor
    · intro h
      by_cases h1 : now > rst.rate_reset
      · rw [if_pos h1] at h
        exact absurd h (by decide)
      · rw [if_neg h1] at h
        by_cases h2 : rst.rate_remaining < RATE_SAFETY_FLOOR
        · exact ⟨h2, not_lt.mp h1⟩
        · rw [if_neg h2] at h
          exact absurd h (by decide)
    · rintro ⟨h2, h3⟩
      rw [if_neg (not_lt.mpr h3), if_pos h2]
  constructor
  · constructor
    · intro h
      by_cases hl : is_rate_limited rst now = true
      · exact hlim.mp hl
      · unfold reddit_api_request at h
        rw [if_neg hl] at h
        simp at h
    · intro hc
      unfold reddit_api_request
      rw [if_pos (hlim.mpr hc)]
  · intro hpass
    unfold is_rate_limited
    rw [if_pos hpass]

theorem throttle_spec_witness :
    is_rate_limited { rate_remaining := 10, rate_reset := 100 } 200 = false ∧
    (reddit_api_request "q" { rate_remaining := 10, rate_reset := 100 } initTokenState 50
      { access_token := "t", expires_in := none }).1 = none := by
  constructor
  · exact (throttle_spec { rate_remaining := 10, rate_reset := 100 } initTokenState 200
      { access_token := "t", expires_in := none } "q").2 (by norm_num)
  · exact (throttle_spec { rate_remaining := 10, rate_reset := 100 } initTokenState 50
      { access_token := "t", expires_in := none } "q").1.mpr ⟨by decide, by norm_num⟩

/-- C8: from the empty initial cache, a first acquisition at t0 performs
one exchange and caches until t0 plus the declared TTL minus the fixed 60
second margin; a second acquisition while the cached token is valid
performs no further exchange and returns the cached token, so the pair
performs exactly one exchange in total.  In general a call returns
without exchanging only when a truthy cached token exists and the clock
is strictly before its recorded expiry, and every exchange caches the
fresh token until now plus TTL minus the margin. -/
theorem token_cache_spec (t0 t1 : ℚ) (f0 f1 : TokenResponse)
    (htok : f0.access_token ≠ "")
    (ht1 : t1 < t0 + f0.expires_in.getD 3600 - 60) :
    (get_token initTokenState t0 f0).2.2 +
      (get_token (get_token initTokenState t0 f0).2.1 t1 f1).2.2 = 1 ∧
    (get_token (get_token initTokenState t0 f0).2.1 t1 f1).1 = f0.access_token ∧
    (get_token initTokenState t0 f0).2.1.token_expires =
      t0 + f0.expires_in.getD 3600 - 60 ∧
    (∀ (st : TokenState) (now : ℚ) (f : TokenResponse),
      (get_token st now f).2.2 = 0 →
        optTruthy st.token = true ∧ now < st.token_expires ∧
        (get_token st now f).1 = st.token.getD "") ∧
    (∀ (st : TokenState) (now : ℚ) (f : TokenResponse),
      (get_token st now f).2.2 = 1 →
        (get_token st now f).2.1.token_expires = now + f.expires_in.getD 3600 - 60 ∧
        (get_token st now f).2.1.token = some f.access_token) := by
  have h1 : get_token initTokenState t0 f0 =
      (f0.access_token,
       { token := some f0.access_token,
         token_expires := t0 + f0.expires_in.getD 3600 - 60 }, 1) := by
    unfold get_token
    rw [if_neg (by simp [initTokenState, optTruthy])]
  have htr : optTruthy (some f0.access_token) = true := by
    simp only [optTruthy, Bool.not_eq_true', beq_eq_false_iff_ne, ne_eq]
    simpa using htok
  have h2 : get_token
      { token := some f0.access_token,
        token_expires := t0 + f0.expires_in.getD 3600 - 60 } t1 f1 =
      (f0.access_token,
       { token := some f0.access_token,
         token_expires := t0 + f0.expires_in.getD 3600 - 60 }, 0) := by
    unfold get_token
    rw [if_pos ⟨htr, ht1⟩]
    rfl
  refine ⟨?_, ?_, ?_, ?_, ?_⟩
  · rw [h1]
    simp only
    rw [h2]
    rfl
  · rw [h1]
    simp only
    rw [h2]
  · rw [h1]
  · intro st now f h
    by_cases hc : (optTruthy st.token = true ∧ now < st.token_expires)
    · unfold get_token
      rw [if_pos hc]
      exact ⟨hc.1, hc.2, rfl⟩
    · unfold get_token at h
      rw [if_neg hc] at h
      simp at h
  · intro st now f h
    by_cases hc : (optTruthy st.token = true ∧ now < st.token_expires)
    · unfold get_token at h
      rw [if_pos hc] at h
      simp at h
    · unfold get_token
      rw [if_neg hc]
      exact ⟨rfl, rfl⟩

theorem token_cache_spec_witness :
    (get_token initTokenState 0 { access_token := "tok", expires_in := none }).2.2 +
      (get_token (get_token initTokenState 0
          { access_token := "tok", expires_in := none }).2.1
        100 { access_token := "tok2", expires_in := none }).2.2 = 1 :=
  (token_cache_spec 0 100 { access_token := "tok", expires_in := none }
    { access_token := "tok2", expires_in := none } (by decide) (by norm_num)).1

/-! ## Result adapters (searxng/engines/reddit.py, reddit_api.py, sources_local.py) -/

/-- Valid characters of a URL scheme after its first letter, as in
urllib.parse. -/
def schemeChar (c : Char) : Bool :=
  c.isAlpha || c.isDigit || c = '+' || c = '-' || c = '.'

/-- Part of the urlparse model: when the text before the first colon is a
nonempty letter-led run of scheme characters, parsing continues after the
colon, else the whole input remains. -/
def dropScheme (l : List Char) : List Char :=
  match l.findIdx? (fun c => c = ':') with
  | none => l
  | some i =>
    if 0 < i ∧ (l.headD ' ').isAlpha ∧ (l.take i).all schemeChar then l.drop (i + 1)
    else l

/-- Part of the urlparse model: when the remainder starts with two
slashes, the netloc runs to the next slash, question mark or hash. -/
def splitNetloc (l : List Char) : List Char × List Char :=
  match l with
  | '/' :: '/' :: rest =>
    (rest.takeWhile (fun c => ¬(c = '/' ∨ c = '?' ∨ c = '#')),
     rest.dropWhile (fun c => ¬(c = '/' ∨ c = '?' ∨ c = '#')))
  | _ => ([], l)

/-- Part of the urlparse model: a semicolon in the last path segment
starts the params, which urlparse excludes from the path. -/
def splitParamsPath (p : List Char) : List Char :=
  if p.contains '/' then
    let seg := (p.reverse.takeWhile (fun c => c ≠ '/')).reverse
    let pre := p.take (p.length - seg.length)
    if seg.contains ';' then pre ++ seg.takeWhile (fun c => c ≠ ';') else p
  else if p.contains ';' then p.takeWhile (fun c => c ≠ ';') else p

/-- The netloc and path components of urllib.parse.urlparse, which the
flat-list adapter consults to decide whether a thumbnail is a real URL
(query and fragment parts are cut from the path as urlparse does). -/
def urlparseNetlocPath (s : String) : String × String :=
  let l := dropScheme s.toList
  let nl := splitNetloc l
  let path0 := nl.2.takeWhile (fun c => ¬(c = '?' ∨ c = '#'))
  (String.mk nl.1, String.mk (splitParamsPath path0))

example : urlparseNetlocPath "https://i.redd.it/x.jpg" = ("i.redd.it", "/x.jpg") := by decide
example : urlparseNetlocPath "self" = ("", "self") := by decide
example : urlparseNetlocPath "https://a.com" = ("a.com", "") := by decide

/-- The uniform result record assembled by the adapters: url and title
always present, every other key optional.  The publishedDate field keeps
the raw created_utc timestamp standing for the datetime object built from
it. -/
structure EngineResult where
  url : String
  title : String
  content : Option String
  publishedDate : Option Int
  metadata : Option String
  img_src : Option String
  thumbnail_src : Option String
  template : Option String
deriving DecidableEq

/-- One submission object of the two reddit-shaped payloads: every field
optional as in a JSON dict, with the dict.get defaults applied at the use
sites. -/
structure RedditPost where
  permalink : Option String
  title : Option String
  thumbnail : Option String
  url : Option String
  created_utc : Option Int
  selftext : Option String
  subreddit : Option String
  score : Option Int
  num_comments : Option Int
deriving DecidableEq

/-- A submission with every field absent: the dict.get default for a
child without a data key. -/
def emptyPost : RedditPost :=
  { permalink := none, title := none, thumbnail := none, url := none,
    created_utc := none, selftext := none, subreddit := none, score := none,
    num_comments := none }

/-- Python slicing s[:n], by code points. -/
def pyTake (s : String) (n : Nat) : String := String.mk (s.toList.take n)

/-- The selftext truncation shared by both reddit adapters: text longer
than 500 characters becomes its first 500 characters plus three dots. -/
def truncateContent (s : String) : String :=
  if s.length > 500 then pyTake s 500 ++ "..." else s

/-- The conditional metadata line of both reddit adapters. -/
def redditMetadata (post : RedditPost) : Option String :=
  let subreddit := post.subreddit.getD ""
  let score := post.score.getD 0
  let num_comments := post.num_comments.getD 0
  if subreddit ≠ "" then
    some ("r/" ++ subreddit ++
      (if score ≠ 0 then " | " ++ toString score ++ " points" else "") ++
      (if num_comments ≠ 0 then " | " ++ toString num_comments ++ " comments" else ""))
  else none

/-- The publishedDate field of both reddit adapters: set only for a
truthy created_utc. -/
def redditPublished (post : RedditPost) : Option Int :=
  let c := post.created_utc.getD 0
  if c ≠ 0 then some c else none

def THUMBNAIL_SENTINELS : List String := ["self", "default", "nsfw", "spoiler", ""]

/-- The image test of the flat-list adapter: the parsed thumbnail has a
truthy netloc and path and the raw value is none of the sentinels. -/
def redditIsImage (thumbnail : String) : Bool :=
  let p := urlparseNetlocPath thumbnail
  decide (p.1 ≠ "" ∧ p.2 ≠ "" ∧ thumbnail ∉ THUMBNAIL_SENTINELS)

def reddit_base_url : String := "https://www.reddit.com"

/-- The canonical URL of the flat-list adapter: base plus permalink for a
truthy permalink, else the falsy empty string. -/
def redditUrl (post : RedditPost) : String :=
  if post.permalink.getD "" ≠ "" then reddit_base_url ++ post.permalink.getD "" else ""

/-- The record of the image branch of the flat-list adapter. -/
def redditImgEntry (post : RedditPost) : EngineResult :=
  { url := redditUrl post, title := post.title.getD "", content := none,
    publishedDate := none, metadata := none,
    img_src := some (post.url.getD (redditUrl post)),
    thumbnail_src := some (post.thumbnail.getD ""), template := some "images.html" }

/-- The record of the text branch of the flat-list adapter. -/
def redditTextEntry (post : RedditPost) : EngineResult :=
  { url := redditUrl post, title := post.title.getD "",
    content := some (truncateContent (post.selftext.getD "")),
    publishedDate := redditPublished post, metadata := redditMetadata post,
    img_src := none, thumbnail_src := none, template := none }

/-- The loop body of the flat-list adapter for one submission: none when
the submission is dropped for a missing url or title, otherwise the built
record with its classification (true for the image branch). -/
def redditRecord (post : RedditPost) : Option (Bool × EngineResult) :=
  if redditUrl post = "" ∨ post.title.getD "" = "" then none
  else if redditIsImage (post.thumbnail.getD "") then some (true, redditImgEntry post)
  else some (false, redditTextEntry post)

/-- The accumulators img_results and text_results after the loop of the
flat-list adapter, in append order. -/
def redditPartition : List RedditPost → List EngineResult × List EngineResult
  | [] => ([], [])
  | post :: rest =>
    match redditRecord post with
    | none => redditPartition rest
    | some (true, entry) => (entry :: (redditPartition rest).1, (redditPartition rest).2)
    | some (false, entry) => ((redditPartition rest).1, entry :: (redditPartition rest).2)

/-- The parsed payload of the flat-list source: an optional data list
(the adapter returns nothing when the data key is missing). -/
structure RedditPayload where
  data : Option (List RedditPost)
deriving DecidableEq

/-- The response function of reddit.py: image results precede text
results in the merged output. -/
def reddit_response (p : RedditPayload) : List EngineResult :=
  match p.data with
  | none => []
  | some posts => (redditPartition posts).1 ++ (redditPartition posts).2

/-- One child of the nested-listing payload, holding an optional data
object. -/
structure RedditChild where
  data : Option RedditPost
deriving DecidableEq

/-- The listing object of the nested-listing payload. -/
structure RedditApiListing where
  children : Option (List RedditChild)
deriving DecidableEq

/-- The parsed payload of the nested-listing source; a body that fails to
parse is modelled by a missing data key, which yields no results as in
the source. -/
structure RedditApiPayload where
  data : Option RedditApiListing
deriving DecidableEq

/-- The image test of the nested-listing adapter: a truthy thumbnail that
is none of the sentinels (no URL parsing here, unlike the flat-list
adapter). -/
def redditApiIsImage (thumbnail : String) : Bool :=
  decide (thumbnail ≠ "" ∧ thumbnail ∉ ["self", "default", "nsfw", "spoiler", ""])

/-- The record the nested-listing adapter builds from one data object. -/
def redditApiEntry (post : RedditPost) : EngineResult :=
  let url := reddit_base_url ++ post.permalink.getD ""
  let thumbnail := post.thumbnail.getD ""
  { url := url, title := post.title.getD "",
    content := some (truncateContent (post.selftext.getD "")),
    publishedDate := redditPublished post, metadata := redditMetadata post,
    img_src := if redditApiIsImage thumbnail then some (post.url.getD url) else none,
    thumbnail_src := if redditApiIsImage thumbnail then some thumbnail else none,
    template := if redditApiIsImage thumbnail then some "images.html" else none }

/-- The record built by the nested-listing adapter for one child, or none
when the title or permalink is missing. -/
def redditApiRecord (child : RedditChild) : Option EngineResult :=
  if (child.data.getD emptyPost).title.getD "" = "" ∨
      (child.data.getD emptyPost).permalink.getD "" = "" then none
  else some (redditApiEntry (child.data.getD emptyPost))

/-- The single-pass record list of the nested-listing adapter, in input
order. -/
def redditApiRecords : List RedditChild → List EngineResult
  | [] => []
  | child :: rest =>
    match redditApiRecord child with
    | none => redditApiRecords rest
    | some entry => entry :: redditApiRecords rest

/-- The parsing part of the response function of reddit_api.py (the
header-driven rate bookkeeping happens before it and touches no result). -/
def reddit_api_response (p : RedditApiPayload) : List EngineResult :=
  redditApiRecords ((p.data.getD { children := none }).children.getD [])

/-- One entry of the generic flat payload. -/
structure SourcesItem where
  title : Option String
  url : Option String
  content : Option String
deriving DecidableEq

/-- The parsed payload of the generic flat source. -/
structure SourcesPayload where
  results : Option (List SourcesItem)
deriving DecidableEq

/-- The record the generic flat adapter keeps for one entry. -/
def sourcesEntry (item : SourcesItem) : EngineResult :=
  { url := item.url.getD "", title := item.title.getD "",
    content := some (item.content.getD ""), publishedDate := none,
    metadata := none, img_src := none, thumbnail_src := none, template := none }

/-- The filtering loop of the generic flat adapter, in input order. -/
def sourcesRecords : List SourcesItem → List EngineResult
  | [] => []
  | item :: rest =>
    if item.title.getD "" = "" ∨ item.url.getD "" = "" then sourcesRecords rest
    else sourcesEntry item :: sourcesRecords rest

/-- The response function of sources_local.py. -/
def sources_local_response (p : SourcesPayload) : List EngineResult :=
  sourcesRecords (p.results.getD [])

theorem base_append_ne_empty (s : String) : reddit_base_url ++ s ≠ "" := by
  intro h
  have h2 := congrArg String.length h
  rw [String.length_append] at h2
  have h3 : reddit_base_url.length = 22 := by decide
  have h4 : ("" : String).length = 0 := rfl
  rw [h3, h4] at h2
  omega

theorem redditUrl_eq_empty (post : RedditPost) :
    redditUrl post = "" ↔ post.permalink.getD "" = "" := by
  unfold redditUrl
  by_cases hp : post.permalink.getD "" ≠ ""
  · rw [if_pos hp]
    constructor
    · intro h
      exact absurd h (base_append_ne_empty _)
    · intro h
      exact absurd h hp
  · rw [if_neg hp]
    push_neg at hp
    simp [hp]

/-- Full case analysis of the flat-list per-submission body on the kept
path. -/
theorem redditRecord_some {post : RedditPost} {b : Bool} {entry : EngineResult}
    (h : redditRecord post = some (b, entry)) :
    redditUrl post ≠ "" ∧ post.title.getD "" ≠ "" ∧
    b = redditIsImage (post.thumbnail.getD "") ∧
    entry = (if b = true then redditImgEntry post else redditTextEntry post) := by
  unfold redditRecord at h
  by_cases h1 : redditUrl post = "" ∨ post.title.getD "" = ""
  · rw [if_pos h1] at h
    exact Option.noConfusion h
  · rw [if_neg h1] at h
    push_neg at h1
    by_cases h2 : redditIsImage (post.thumbnail.getD "") = true
    · rw [if_pos h2] at h
      simp only [Option.some.injEq, Prod.mk.injEq] at h
      obtain ⟨hb, he⟩ := h
      subst hb
      subst he
      exact ⟨h1.1, h1.2, h2.symm, by simp⟩
    · rw [if_neg h2] at h
      simp only [Option.some.injEq, Prod.mk.injEq] at h
      obtain ⟨hb, he⟩ := h
      subst hb
      subst he
      have h2f : redditIsImage (post.thumbnail.getD "") = false :=
        Bool.not_eq_true _ |>.mp h2
      exact ⟨h1.1, h1.2, h2f.symm, by simp⟩

theorem redditPartition_mem {l : List RedditPost} {r : EngineResult} :
    (r ∈ (redditPartition l).1 → ∃ post ∈ l, redditRecord post = some (true, r)) ∧
    (r ∈ (redditPartition l).2 → ∃ post ∈ l, redditRecord post = some (false, r)) := by
  induction l with
  | nil => exact ⟨fun h => absurd h (List.not_mem_nil r), fun h => absurd h (List.not_mem_nil r)⟩
  | cons post rest ih =>
    constructor
    · intro hm
      simp only [redditPartition] at hm
      rcases hp : redditRecord post with _ | ⟨b, entry⟩
      · rw [hp] at hm
        obtain ⟨p2, hp2, hr2⟩ := ih.1 hm
        exact ⟨p2, List.mem_cons_of_mem _ hp2, hr2⟩
      · cases b
        · rw [hp] at hm
          obtain ⟨p2, hp2, hr2⟩ := ih.1 hm
          exact ⟨p2, List.mem_cons_of_mem _ hp2, hr2⟩
        · rw [hp] at hm
          rcases List.mem_cons.mp hm with rfl | hm2
          · exact ⟨post, List.mem_cons_self _ _, hp⟩
          · obtain ⟨p2, hp2, hr2⟩ := ih.1 hm2
            exact ⟨p2, List.mem_cons_of_mem _ hp2, hr2⟩
    · intro hm
      simp only [redditPartition] at hm
      rcases hp : redditRecord post with _ | ⟨b, entry⟩
      · rw [hp] at hm
        obtain ⟨p2, hp2, hr2⟩ := ih.2 hm
        exact ⟨p2, List.mem_cons_of_mem _ hp2, hr2⟩
      · cases b
        · rw [hp] at hm
          rcases List.mem_cons.mp hm with rfl | hm2
          · exact ⟨post, List.mem_cons_self _ _, hp⟩
          · obtain ⟨p2, hp2, hr2⟩ := ih.2 hm2
            exact ⟨p2, List.mem_cons_of_mem _ hp2, hr2⟩
        · rw [hp] at hm
          obtain ⟨p2, hp2, hr2⟩ := ih.2 hm
          exact ⟨p2, List.mem_cons_of_mem _ hp2, hr2⟩

theorem redditPartition_length (l : List RedditPost) :
    (redditPartition l).1.length + (redditPartition l).2.length ≤ l.length := by
  induction l with
  | nil => simp [redditPartition]
  | cons post rest ih =>
    simp only [redditPartition]
    rcases hp : redditRecord post with _ | ⟨b, entry⟩
    · simp only [List.length_cons]
      omega
    · cases b
      · simp only [List.length_cons]
        omega
      · simp only [List.length_cons]
        omega

theorem redditApiRecords_length (l : List RedditChild) :
    (redditApiRecords l).length ≤ l.length := by
  induction l with
  | nil => simp [redditApiRecords]
  | cons child rest ih =>
    simp only [redditApiRecords]
    rcases hp : redditApiRecord child with _ | entry
    · simp only [List.length_cons]
      omega
    · simp only [List.length_cons]
      omega

theorem redditApiRecords_mem {l : List RedditChild} {r : EngineResult}
    (h : r ∈ redditApiRecords l) :
    ∃ child ∈ l, redditApiRecord child = some r := by
  induction l with
  | nil => exact absurd h (List.not_mem_nil r)
  | cons child rest ih =>
    simp only [redditApiRecords] at h
    rcases hp : redditApiRecord child with _ | entry
    · rw [hp] at h
      obtain ⟨c2, hc2, hr2⟩ := ih h
      exact ⟨c2, List.mem_cons_of_mem _ hc2, hr2⟩
    · rw [hp] at h
      rcases List.mem_cons.mp h with rfl | h2
      · exact ⟨child, List.mem_cons_self _ _, hp⟩
      · obtain ⟨c2, hc2, hr2⟩ := ih h2
        exact ⟨c2, List.mem_cons_of_mem _ hc2, hr2⟩

theorem redditApiRecord_some {child : RedditChild} {entry : EngineResult}
    (h : redditApiRecord child = some entry) :
    (child.data.getD emptyPost).title.getD "" ≠ "" ∧
    (child.data.getD emptyPost).permalink.getD "" ≠ "" ∧
    entry = redditApiEntry (child.data.getD emptyPost) := by
  unfold redditApiRecord at h
  by_cases h1 : (child.data.getD emptyPost).title.getD "" = "" ∨
      (child.data.getD emptyPost).permalink.getD "" = ""
  · rw [if_pos h1] at h
    exact Option.noConfusion h
  · rw [if_neg h1] at h
    push_neg at h1
    exact ⟨h1.1, h1.2, (Option.some.inj h).symm⟩

theorem sourcesRecords_length (l : List SourcesItem) :
    (sourcesRecords l).length ≤ l.length := by
  induction l with
  | nil => simp [sourcesRecords]
  | cons item rest ih =>
    simp only [sourcesRecords]
    by_cases h1 : item.title.getD "" = "" ∨ item.url.getD "" = ""
    · rw [if_pos h1]
      simp only [List.length_cons]
      omega
    · rw [if_neg h1]
      simp only [List.length_cons]
      omega

theorem sourcesRecords_mem {l : List SourcesItem} {r : EngineResult}
    (h : r ∈ sourcesRecords l) :
    ∃ item ∈ l, item.title.getD "" ≠ "" ∧ item.url.getD "" ≠ "" ∧ r = sourcesEntry item := by
  induction l with
  | nil => exact absurd h (List.not_mem_nil r)
  | cons item rest ih =>
    simp only [sourcesRecords] at h
    by_cases h1 : item.title.getD "" = "" ∨ item.url.getD "" = ""
    · rw [if_pos h1] at h
      obtain ⟨i2, hi2, hr2⟩ := ih h
      exact ⟨i2, List.mem_cons_of_mem _ hi2, hr2⟩
    · rw [if_neg h1] at h
      push_neg at h1
      rcases List.mem_cons.mp h with rfl | h2
      · exact ⟨item, List.mem_cons_self _ _, h1.1, h1.2, rfl⟩
      · obtain ⟨i2, hi2, hr2⟩ := ih h2
        exact ⟨i2, List.mem_cons_of_mem _ hi2, hr2⟩

/-- A record kept by the flat-list adapter has the nonempty url and title
of its submission, whichever branch built it. -/
theorem redditRecord_entry_nonempty {post : RedditPost} {b : Bool} {entry : EngineResult}
    (h : redditRecord post = some (b, entry)) : entry.url ≠ "" ∧ entry.title ≠ "" := by
  obtain ⟨hu, ht, _, he⟩ := redditRecord_some h
  subst he
  cases b
  · exact ⟨hu, ht⟩
  · exact ⟨hu, ht⟩

/-- C5: for all three adapters, the output has at most as many records as
the input, and every emitted record carries a nonempty url and a nonempty
title; a record lacking either is dropped before the output. -/
theorem adapters_invariant (p1 : RedditPayload) (p2 : RedditApiPayload) (p3 : SourcesPayload) :
    (reddit_response p1).length ≤ (p1.data.getD []).length ∧
    (∀ r ∈ reddit_response p1, r.url ≠ "" ∧ r.title ≠ "") ∧
    (reddit_api_response p2).length ≤
      ((p2.data.getD { children := none }).children.getD []).length ∧
    (∀ r ∈ reddit_api_response p2, r.url ≠ "" ∧ r.title ≠ "") ∧
    (sources_local_response p3).length ≤ (p3.results.getD []).length ∧
    (∀ r ∈ sources_local_response p3, r.url ≠ "" ∧ r.title ≠ "") := by
  refine ⟨?_, ?_, ?_, ?_, ?_, ?_⟩
  · rcases p1 with ⟨_ | posts⟩
    · simp [reddit_response]
    · simp only [reddit_response, Option.getD_some]
      rw [List.length_append]
      exact redditPartition_length posts
  · intro r hr
    rcases p1 with ⟨_ | posts⟩
    · exact absurd hr (List.not_mem_nil r)
    · simp only [reddit_response] at hr
      rcases List.mem_append.mp hr with h | h
      · obtain ⟨post, _, hrec⟩ := redditPartition_mem.1 h
        exact redditRecord_entry_nonempty hrec
      · obtain ⟨post, _, hrec⟩ := redditPartition_mem.2 h
        exact redditRecord_entry_nonempty hrec
  · unfold reddit_api_response
    exact redditApiRecords_length _
  · intro r hr
    unfold reddit_api_response at hr
    obtain ⟨child, _, hrec⟩ := redditApiRecords_mem hr
    obtain ⟨ht, hp, he⟩ := redditApiRecord_some hrec
    subst he
    exact ⟨base_append_ne_empty _, ht⟩
  · unfold sources_local_response
    exact sourcesRecords_length _
  · intro r hr
    unfold sources_local_response at hr
    obtain ⟨item, _, ht, hu, he⟩ := sourcesRecords_mem hr
    subst he
    exact ⟨hu, ht⟩

/-- The scenario submission of the spec: permalink /r/x/1, title t,
thumbnail self, everything else absent. -/
def scnPost : RedditPost :=
  { permalink := some "/r/x/1", title := some "t", thumbnail := some "self",
    url := none, created_utc := none, selftext := none, subreddit := none,
    score := none, num_comments := none }

def scnPayload : RedditPayload := { data := some [scnPost] }

/-- The record the flat-list adapter emits for the scenario submission. -/
def scnRecord : EngineResult :=
  { url := "https://www.reddit.com/r/x/1", title := "t", content := some "",
    publishedDate := none, metadata := none, img_src := none,
    thumbnail_src := none, template := none }

theorem adapters_invariant_witness :
    scnRecord ∈ reddit_response scnPayload ∧ scnRecord.url ≠ "" ∧ scnRecord.title ≠ "" := by
  have hm : scnRecord ∈ reddit_response scnPayload := by decide
  have h := (adapters_invariant scnPayload { data := none } { results := none }).2.1 scnRecord hm
  exact ⟨hm, h.1, h.2⟩

theorem truncateContent_length (s : String) :
    (truncateContent s).length = if s.length > 500 then 503 else s.length := by
  unfold truncateContent
  by_cases h : s.length > 500
  · rw [if_pos h, if_pos h]
    rw [String.length_append]
    have h1 : (pyTake s 500).length = 500 := by
      have h2 : (pyTake s 500).length = (s.toList.take 500).length := rfl
      have h3 : s.toList.length = s.length := rfl
      rw [h2, List.length_take, h3]
      omega
    rw [h1]
    decide
  · rw [if_neg h, if_neg h]

theorem truncateContent_length_le (s : String) : (truncateContent s).length ≤ 503 := by
  rw [truncateContent_length]
  by_cases h : s.length > 500
  · rw [if_pos h]
  · rw [if_neg h]
    omega

/-- C6 amended: every emitted record of the flat-list and nested-listing
adapters has a content of at most 503 characters: selftext of at most 500
characters passes unchanged, longer selftext is cut to its first 500
characters plus a three-character ellipsis, 503 characters in total. -/
theorem content_bound (p1 : RedditPayload) (p2 : RedditApiPayload) :
    (∀ r ∈ reddit_response p1, (r.content.getD "").length ≤ 503) ∧
    (∀ r ∈ reddit_api_response p2, (r.content.getD "").length ≤ 503) ∧
    (∀ s : String, s.length ≤ 500 → truncateContent s = s) ∧
    (∀ s : String, 500 < s.length →
      truncateContent s = pyTake s 500 ++ "..." ∧ (truncateContent s).length = 503) := by
  refine ⟨?_, ?_, ?_, ?_⟩
  · intro r hr
    rcases p1 with ⟨_ | posts⟩
    · exact absurd hr (List.not_mem_nil r)
    · simp only [reddit_response] at hr
      rcases List.mem_append.mp hr with h | h
      · obtain ⟨post, _, hrec⟩ := redditPartition_mem.1 h
        obtain ⟨_, _, _, he⟩ := redditRecord_some hrec
        simp only [if_pos] at he
        subst he
        simp [redditImgEntry]
      · obtain ⟨post, _, hrec⟩ := redditPartition_mem.2 h
        obtain ⟨_, _, _, he⟩ := redditRecord_some hrec
        simp only [Bool.false_eq_true, if_false] at he
        subst he
        exact truncateContent_length_le _
  · intro r hr
    unfold reddit_api_response at hr
    obtain ⟨child, _, hrec⟩ := redditApiRecords_mem hr
    obtain ⟨_, _, he⟩ := redditApiRecord_some hrec
    subst he
    exact truncateContent_length_le _
  · intro s hs
    unfold truncateContent
    rw [if_neg (by omega)]
  · intro s hs
    constructor
    · unfold truncateContent
      rw [if_pos (by omega)]
    · rw [truncateContent_length, if_pos (by omega)]

/-- A selftext of exactly 501 characters. -/
def longSelftext : String := String.mk (List.replicate 501 'a')

def longPost : RedditPost :=
  { permalink := some "/r/x/1", title := some "t", thumbnail := none,
    url := none, created_utc := none, selftext := some longSelftext,
    subreddit := none, score := none, num_comments := none }

/-- C6 counterexample: a kept submission whose selftext has 501
characters yields a record whose content is 503 characters long, more
than the 500-character bound the claim states. -/
theorem content_length_counterexample :
    ∃ r ∈ reddit_response { data := some [longPost] },
      ¬((r.content.getD "").length ≤ 500) := by
  have hrec : redditRecord longPost = some (false, redditTextEntry longPost) := by
    unfold redditRecord
    rw [if_neg (by decide), if_neg (by decide)]
  have hresp : reddit_response { data := some [longPost] } = [redditTextEntry longPost] := by
    simp only [reddit_response, redditPartition, hrec, List.nil_append]
  refine ⟨redditTextEntry longPost, ?_, ?_⟩
  · rw [hresp]
    exact List.mem_singleton.mpr rfl
  · intro hle
    have h5 : longSelftext.length = 501 := by
      have h6 : longSelftext.length = (List.replicate 501 'a').length := rfl
      rw [h6, List.length_replicate]
    have h7 : ((redditTextEntry longPost).content.getD "") = truncateContent longSelftext := rfl
    have h8 := truncateContent_length longSelftext
    rw [if_pos (by rw [h5]; omega)] at h8
    rw [h7, h8] at hle
    omega

theorem content_bound_witness :
    scnRecord ∈ reddit_response scnPayload ∧ (scnRecord.content.getD "").length ≤ 503 := by
  have hm : scnRecord ∈ reddit_response scnPayload := by decide
  exact ⟨hm, (content_bound scnPayload { data := none }).1 scnRecord hm⟩

theorem redditPartition_img_template {l : List RedditPost} {r : EngineResult}
    (h : r ∈ (redditPartition l).1) : r.template = some "images.html" := by
  obtain ⟨post, _, hrec⟩ := redditPartition_mem.1 h
  obtain ⟨_, _, _, he⟩ := redditRecord_some hrec
  simp only [if_pos] at he
  subst he
  rfl

theorem redditPartition_text_template {l : List RedditPost} {r : EngineResult}
    (h : r ∈ (redditPartition l).2) : r.template = none := by
  obtain ⟨post, _, hrec⟩ := redditPartition_mem.2 h
  obtain ⟨_, _, _, he⟩ := redditRecord_some hrec
  simp only [Bool.false_eq_true, if_false] at he
  subst he
  rfl

/-- C9: the flat-list adapter classifies a kept submission as an image
record exactly when the parsed thumbnail has a truthy network location
and path and the raw value is none of the sentinels self, default, nsfw,
spoiler or empty; every image record precedes every text record in the
output; and the scenario payload with thumbnail self yields exactly one
text record with empty content and no image fields. -/
theorem reddit_classification (p : RedditPayload) (post : RedditPost) :
    ((reddit_response p).filter (fun r => r.template == some "images.html") ++
      (reddit_response p).filter (fun r => !(r.template == some "images.html")) =
      reddit_response p) ∧
    ((redditPartition [post]).1 ≠ [] ↔
      (post.permalink.getD "" ≠ "" ∧ post.title.getD "" ≠ "" ∧
       (urlparseNetlocPath (post.thumbnail.getD "")).1 ≠ "" ∧
       (urlparseNetlocPath (post.thumbnail.getD "")).2 ≠ "" ∧
       post.thumbnail.getD "" ∉ THUMBNAIL_SENTINELS)) ∧
    reddit_response scnPayload = [scnRecord] ∧
    scnRecord.content = some "" ∧ scnRecord.img_src = none ∧
    scnRecord.thumbnail_src = none ∧ scnRecord.template = none := by
  refine ⟨?_, ?_, by decide, rfl, rfl, rfl, rfl⟩
  · rcases p with ⟨_ | posts⟩
    · rfl
    · simp only [reddit_response]
      rw [List.filter_append, List.filter_append]
      have hA : (redditPartition posts).1.filter
          (fun r => r.template == some "images.html") = (redditPartition posts).1 := by
        apply List.filter_eq_self.mpr
        intro a ha
        rw [redditPartition_img_template ha]
        rfl
      have hB : (redditPartition posts).2.filter
          (fun r => r.template == some "images.html") = [] := by
        apply List.filter_eq_nil_iff.mpr
        intro a ha
        rw [redditPartition_text_template ha]
        decide
      have hA2 : (redditPartition posts).1.filter
          (fun r => !(r.template == some "images.html")) = [] := by
        apply List.filter_eq_nil_iff.mpr
        intro a ha
        rw [redditPartition_img_template ha]
        decide
      have hB2 : (redditPartition posts).2.filter
          (fun r => !(r.template == some "images.html")) = (redditPartition posts).2 := by
        apply List.filter_eq_self.mpr
        intro a ha
        rw [redditPartition_text_template ha]
        rfl
      rw [hA, hB, hA2, hB2, List.append_nil, List.nil_append]
  · constructor
    · intro hne
      rcases hrec : redditRecord post with _ | ⟨b, entry⟩
      · simp only [redditPartition, hrec] at hne
        simp [redditPartition] at hne
      · cases b
        · simp only [redditPartition, hrec] at hne
          simp [redditPartition] at hne
        · obtain ⟨hu, ht, hb, _⟩ := redditRecord_some hrec
          have himg : redditIsImage (post.thumbnail.getD "") = true := hb.symm
          have hcomp : (urlparseNetlocPath (post.thumbnail.getD "")).1 ≠ "" ∧
              (urlparseNetlocPath (post.thumbnail.getD "")).2 ≠ "" ∧
              post.thumbnail.getD "" ∉ THUMBNAIL_SENTINELS := of_decide_eq_true himg
          exact ⟨fun hp => hu ((redditUrl_eq_empty post).mpr hp), ht,
            hcomp.1, hcomp.2.1, hcomp.2.2⟩
    · rintro ⟨hp, ht, h1, h2, h3⟩
      have himg : redditIsImage (post.thumbnail.getD "") = true :=
        decide_eq_true ⟨h1, h2, h3⟩
      have hu : redditUrl post ≠ "" := fun h => hp ((redditUrl_eq_empty post).mp h)
      have hrec : redditRecord post = some (true, redditImgEntry post) := by
        unfold redditRecord
        rw [if_neg (by push_neg; exact ⟨hu, ht⟩), if_pos himg]
      simp only [redditPartition, hrec]
      simp [redditPartition]
